import Mathlib

/-!
# Verification of the SAM writer / BAM-to-SAM filter pipeline

A shallow embedding of `src/sam/mod.rs` from the `rust-htslib` fork: the
`SAMWriter` type (construction via `hts_open` + `sam_hdr_parse` +
`sam_hdr_write`, per-record writes via `sam_write1`, teardown via `hts_close`)
and the `from_bam_with_filter` streaming pipeline.

External C primitives (`hts_open`, `sam_hdr_write`, `sam_write1`) are modelled
as oracles collected in an `Env` record: the embedding of each Rust function
consults the oracle exactly where the Rust code calls the primitive, and the
observable effects on the output sink are recorded as an explicit event list.

The `bam` module of the repository (the `Reader` collaborator and
`Header::from_template`) and the textual header codec
(`Header::to_bytes` / `sam_hdr_parse`) are not part of the given source tree;
where a claim depends on them they are modelled from the specification and
marked as such in their doc comments.
-/

namespace RustHtslib

/-! ## Header data model

Modelled from the spec: the structural header holds reference-sequence
names/lengths and free-text metadata lines. -/

/-- Modelled from the spec: the in-memory header — reference sequence
names with lengths, in order, plus free-text metadata lines
(the `@HD`/`@CO`/... lines of a SAM header). -/
structure HeaderModel where
  refs : List (List Char × Nat)
  extraLines : List (List Char)
deriving DecidableEq

/-- Modelled from the spec: `Header::from_template` deep-copies the logical
content of the source header into an independently owned instance; in a pure
model the copy is the value itself. -/
def from_template (h : HeaderModel) : HeaderModel := h

/-! ### Textual header codec

Modelled from the spec: `Header::to_bytes` (serialize) and `sam_hdr_parse`
(parse) live outside the given source tree.  The spec describes the textual
block as self-describing (the source null-terminates it:
`malloc(l_text + 1)` + `memset 0`), carrying the reference names/lengths as
`@SQ` lines (`SN:` name, `LN:` length) alongside the free-text metadata
lines, and asks for a structural round-trip. -/

/-- The line separator of the textual header block. -/
def nl : Char := '\n'

/-- The field separator inside a header line. -/
def tab : Char := '\t'

/-- The terminating null byte the writer appends to the header text. -/
def nulChar : Char := Char.ofNat 0

/-- One decimal digit as a character. -/
def digitChar : Nat → Char
  | 0 => '0'
  | 1 => '1'
  | 2 => '2'
  | 3 => '3'
  | 4 => '4'
  | 5 => '5'
  | 6 => '6'
  | 7 => '7'
  | 8 => '8'
  | 9 => '9'
  | _ => '0'

/-- The numeric value of a decimal digit character. -/
def charDigit (c : Char) : Nat := c.toNat - 48

/-- Big-endian decimal digits of a positive number, with enough fuel. -/
def natDigitsAux : Nat → Nat → List Char
  | 0, _ => []
  | _ + 1, 0 => []
  | fuel + 1, n + 1 =>
    natDigitsAux fuel ((n + 1) / 10) ++ [digitChar ((n + 1) % 10)]

/-- Decimal representation of a natural number. -/
def natChars (n : Nat) : List Char :=
  if n = 0 then ['0'] else natDigitsAux n n

/-- Read back a decimal representation. -/
def readNat (cs : List Char) : Nat :=
  cs.foldl (fun acc c => 10 * acc + charDigit c) 0

/-- The lead-in of a reference-sequence line: `@SQ<tab>SN:`. -/
def sqTag : List Char := ['@', 'S', 'Q', '\t', 'S', 'N', ':']

/-- The lead-in of the length field: `LN:`. -/
def lnTag : List Char := ['L', 'N', ':']

/-- Serialize one reference sequence as `@SQ<tab>SN:name<tab>LN:length`. -/
def refLine (r : List Char × Nat) : List Char :=
  sqTag ++ r.1 ++ tab :: lnTag ++ natChars r.2

/-- The lines of the textual header block: the `@SQ` lines in reference
order followed by the metadata lines. -/
def serializeLines (h : HeaderModel) : List (List Char) :=
  h.refs.map refLine ++ h.extraLines

/-- Join lines, terminating each with a newline. -/
def joinLines : List (List Char) → List Char
  | [] => []
  | l :: ls => l ++ nl :: joinLines ls

/-- The canonical textual header block: newline-terminated lines followed
by the terminating null byte, so the block carries its own length. -/
def serialize (h : HeaderModel) : List Char :=
  joinLines (serializeLines h) ++ [nulChar]

/-- Split a character list at every newline. -/
def splitOnNl : List Char → List (List Char)
  | [] => [[]]
  | c :: cs =>
    if c = nl then [] :: splitOnNl cs
    else
      match splitOnNl cs with
      | [] => [[c]]
      | l :: ls => (c :: l) :: ls

/-- Split off the last element of a list. -/
def unsnoc {β : Type} : List β → Option (List β × β)
  | [] => none
  | x :: xs =>
    match unsnoc xs with
    | none => some ([], x)
    | some (ys, z) => some (x :: ys, z)

/-- Strip an expected leading tag, or fail. -/
def stripTag : List Char → List Char → Option (List Char)
  | [], cs => some cs
  | _ :: _, [] => none
  | t :: ts, c :: cs => if c = t then stripTag ts cs else none

/-- Split at the first tab character, or fail when there is none. -/
def splitAtTab : List Char → Option (List Char × List Char)
  | [] => none
  | c :: cs =>
    if c = tab then some ([], cs)
    else
      match splitAtTab cs with
      | none => none
      | some (a, b) => some (c :: a, b)

/-- Parse one header line: an `@SQ` line yields a reference name/length
pair, any other line is kept verbatim as metadata. -/
def parseLine (l : List Char) : Option (Sum (List Char × Nat) (List Char)) :=
  match stripTag sqTag l with
  | none => some (Sum.inr l)
  | some rest =>
    match splitAtTab rest with
    | none => none
    | some (name, after) =>
      match stripTag lnTag after with
      | none => none
      | some ds =>
        if name ≠ [] ∧ ds ≠ [] ∧ ds.all Char.isDigit then
          some (Sum.inl (name, readNat ds))
        else none

/-- Parse a list of header lines into a structural header, keeping the
relative order of the reference lines and of the metadata lines. -/
def parseLines : List (List Char) → Option HeaderModel
  | [] => some ⟨[], []⟩
  | l :: ls =>
    match parseLines ls, parseLine l with
    | some h, some (Sum.inl r) => some ⟨r :: h.refs, h.extraLines⟩
    | some h, some (Sum.inr a) => some ⟨h.refs, a :: h.extraLines⟩
    | _, _ => none

/-- Parse a textual header block: require the terminating null byte and a
final newline, then parse the lines. -/
def parse (cs : List Char) : Option HeaderModel :=
  match unsnoc cs with
  | none => none
  | some (body, last) =>
    if last = nulChar then
      match unsnoc (splitOnNl body) with
      | none => none
      | some (lines, fin) => if fin = [] then parseLines lines else none
    else none

/-- A usable reference name: non-empty, with no separator or null bytes. -/
def validNameB (s : List Char) : Bool :=
  !s.isEmpty && s.all fun c => c != nl && c != tab && c != nulChar

/-- A usable metadata line: no newline or null bytes, and not shaped like
the lead-in of a reference line. -/
def validExtraB (s : List Char) : Bool :=
  (s.all fun c => c != nl && c != nulChar) && (stripTag sqTag s).isNone

/-- A valid header: all reference names and metadata lines usable. -/
def validHeaderB (h : HeaderModel) : Bool :=
  (h.refs.all fun r => validNameB r.1) && h.extraLines.all validExtraB

/-! ## Errors, events and the oracle environment -/

/-- Decode failure of one BAM record (opaque; produced by the external
reader collaborator). -/
inductive DecodeError
  | err
deriving DecidableEq

/-- `SAMError` from the source: the single `IOError` variant. -/
inductive SAMError
  | IOError
deriving DecidableEq

/-- `WriteError` from the source: the single `Some` variant
("error writing record"). -/
inductive WriteError
  | Some
deriving DecidableEq

/-- One observable write on the output sink: either the header block
(`sam_hdr_write`) or one record (`sam_write1`). -/
inductive SinkEvent (α : Type)
  | headerWritten (h : HeaderModel)
  | recordWritten (r : α)
deriving DecidableEq

/-- Resource releases performed at the writer's end of life. -/
inductive ReleaseEvent
  | closedSink
  | releasedHeader
deriving DecidableEq

/-- The input-stream collaborator after a successful open: its (borrowed)
header and the lazy, finite sequence of decode results. -/
structure BamInput (α : Type) where
  header : HeaderModel
  records : List (Except DecodeError α)

/-- Oracles for the external C primitives.  `samWrite1` is indexed by the
number of preceding `sam_write1` calls on the same writer; `samHdrWriteRet`
is the result `sam_hdr_write` would report (negative = failure). -/
structure Env (α : Type) where
  htsOpenOk : List Char → Bool
  samHdrWriteRet : Int
  samWrite1 : Nat → Int
  bamOpen : List Char → Option (BamInput α)
  bamStdin : Option (BamInput α)

/-- A filesystem path as handed to `SAMWriter::from_path`: `to_str()` either
yields the UTF-8 string form or fails. -/
structure OsPath where
  utf8 : Option (List Char)

/-! ## SAMHeaderView and SAMWriter -/

/-- `SAMHeaderView` from the source: the header instance plus the `owned`
flag.  `SAMHeaderView::new` always sets `owned: true`. -/
structure SAMHeaderView where
  inner : HeaderModel
  owned : Bool
deriving DecidableEq

/-- `SAMHeaderView::new`: wraps the given header record, owned. -/
def SAMHeaderView.new (h : HeaderModel) : SAMHeaderView :=
  { inner := h, owned := true }

/-- `SAMWriter` from the source: the open `htsFile` (modelled by the event
list already sent to it plus the `sam_write1` call count) and the owning
header view.  The `calls` field indexes the `samWrite1` oracle. -/
structure SAMWriter (α : Type) where
  sink : List (SinkEvent α)
  calls : Nat
  header : SAMHeaderView
deriving DecidableEq

/-- `SAMWriter::new`: `hts_open(path, "w")`; on `NULL`, `IOError`.  Otherwise
the textual header is parsed into a record (`sam_hdr_parse` — for well-formed
headers the round-trip development below shows this recovers the structural
header) and written with `sam_hdr_write`, whose result the source discards.
The second component is the list of paths passed to `hts_open`. -/
def SAMWriter.new (env : Env α) (path : List Char) (h : HeaderModel) :
    Except SAMError (SAMWriter α) × List (List Char) :=
  if env.htsOpenOk path then
    (Except.ok { sink := [SinkEvent.headerWritten h], calls := 0,
                 header := SAMHeaderView.new h }, [path])
  else
    (Except.error SAMError.IOError, [path])

/-- `SAMWriter::from_path`: `path.to_str()` must succeed, else `IOError`
before any `hts_open` call; on success defer to `new`. -/
def SAMWriter.from_path (env : Env α) (p : OsPath) (h : HeaderModel) :
    Except SAMError (SAMWriter α) × List (List Char) :=
  match p.utf8 with
  | some s => SAMWriter.new env s h
  | none => (Except.error SAMError.IOError, [])

/-- The stdio sentinel path `"-"`. -/
def stdinS : List Char := ['-']

/-- `SAMWriter::from_stdout`: `new(b"-", header)`. -/
def SAMWriter.from_stdout (env : Env α) (h : HeaderModel) :
    Except SAMError (SAMWriter α) × List (List Char) :=
  SAMWriter.new env stdinS h

/-- `SAMWriter::write`: one `sam_write1` call; the source reports
`WriteError::Some` exactly when the primitive returns `-1`.  The record lands
on the sink when the primitive reports success (a non-negative result). -/
def SAMWriter.write (env : Env α) (w : SAMWriter α) (r : α) :
    SAMWriter α × Except WriteError Unit :=
  let ret := env.samWrite1 w.calls
  let w' : SAMWriter α :=
    { w with calls := w.calls + 1,
             sink := if 0 ≤ ret then w.sink ++ [SinkEvent.recordWritten r]
                     else w.sink }
  if ret = -1 then (w', Except.error WriteError.Some) else (w', Except.ok ())

/-- `Drop for SAMWriter`: the impl calls only `hts_close(self.f)`.
`SAMHeaderView` has no `Drop` impl and nothing in the file ever calls
`bam_hdr_destroy`, so dropping the writer releases the sink and nothing
else. -/
def SAMWriter.drop (_w : SAMWriter α) : List ReleaseEvent :=
  [ReleaseEvent.closedSink]

/-! ## The filter pipeline -/

/-- Opening the input stream in `from_bam_with_filter`:
`if bamfile != "-" { Reader::from_path(bamfile) } else { Reader::from_stdin() }`,
any reader error mapped to `IOError` (here: `none`).  The reader collaborator
is modelled from the spec by the `bamOpen`/`bamStdin` oracles. -/
def openInput (env : Env α) (bamfile : List Char) : Option (BamInput α) :=
  if bamfile ≠ stdinS then env.bamOpen bamfile else env.bamStdin

/-- Opening the output writer in `from_bam_with_filter`:
`if samfile != "-" { SAMWriter::from_path(samfile, &header) } else { SAMWriter::from_stdout(&header) }`. -/
def openOutput (env : Env α) (samfile : List Char) (h : HeaderModel) :
    Except SAMError (SAMWriter α) × List (List Char) :=
  if samfile ≠ stdinS then SAMWriter.from_path env ⟨some samfile⟩ h
  else SAMWriter.from_stdout env h

/-- The record loop of `from_bam_with_filter`: for each decode result, a
decode error aborts with `IOError`; otherwise `f` routes the record —
`none` terminates with `Ok`, `some false` skips, `some true` writes and a
write error aborts with `IOError`. -/
def filterLoop (env : Env α) (f : α → Option Bool) :
    SAMWriter α → List (Except DecodeError α) → SAMWriter α × Except SAMError Unit
  | w, [] => (w, Except.ok ())
  | w, Except.error _ :: _ => (w, Except.error SAMError.IOError)
  | w, Except.ok r :: rest =>
    match f r with
    | none => (w, Except.ok ())
    | some false => filterLoop env f w rest
    | some true =>
      match SAMWriter.write env w r with
      | (w', Except.ok _) => filterLoop env f w' rest
      | (w', Except.error _) => (w', Except.error SAMError.IOError)

/-- Observable outcome of one pipeline run: the returned result, the final
writer state when one was constructed, and the paths passed to `hts_open`. -/
structure PipelineResult (α : Type) where
  result : Except SAMError Unit
  writer : Option (SAMWriter α)
  opens : List (List Char)

/-- `SAMWriter::from_bam_with_filter`: open the input (else `IOError`),
derive the header `from_template`, open the writer (propagating its error),
then run the record loop. -/
def from_bam_with_filter (env : Env α) (bamfile samfile : List Char)
    (f : α → Option Bool) : PipelineResult α :=
  match openInput env bamfile with
  | none => ⟨Except.error SAMError.IOError, none, []⟩
  | some input =>
    let header := from_template input.header
    match openOutput env samfile header with
    | (Except.error e, tr) => ⟨Except.error e, none, tr⟩
    | (Except.ok w, tr) =>
      let res := filterLoop env f w input.records
      ⟨res.2, some res.1, tr⟩

/-! ## Derived notions used by the statements -/

/-- The records of a decode-result list that the predicate keeps. -/
def keptRecords (f : α → Option Bool) (l : List (Except DecodeError α)) :
    List α :=
  l.filterMap fun x =>
    match x with
    | Except.ok r => if f r = some true then some r else none
    | Except.error _ => none

/-- A decode result is decided when it decoded successfully and the
predicate answers Keep or Discard (not Stop) on it. -/
def decidedB (f : α → Option Bool) : Except DecodeError α → Bool
  | Except.ok r => (f r).isSome
  | Except.error _ => false

/-- Every element of the list is decided. -/
def allDecidedB (f : α → Option Bool) (l : List (Except DecodeError α)) :
    Bool :=
  l.all (decidedB f)

/-- Fold a sequence of `SAMWriter::write` calls, keeping the writer state. -/
def writeMany (env : Env α) (w : SAMWriter α) (rs : List α) : SAMWriter α :=
  rs.foldl (fun w r => (SAMWriter.write env w r).1) w

/-- Whether a sink event is the header block. -/
def isHeaderEvent : SinkEvent α → Bool
  | SinkEvent.headerWritten _ => true
  | SinkEvent.recordWritten _ => false

/-- The writer state `SAMWriter::new` hands back after a successful open:
header written, no `sam_write1` calls yet, owning header view. -/
def initWriter (h : HeaderModel) : SAMWriter α :=
  { sink := [SinkEvent.headerWritten h], calls := 0,
    header := SAMHeaderView.new h }

/-! ## Concrete fixtures used to evaluate the definitions -/

/-- A small concrete header: one reference `r1` of length 5 and one
`@CO` metadata line. -/
def hdrW : HeaderModel := ⟨[(['r', '1'], 5)], [['@', 'C', 'O', '\t', 'x']]⟩

/-- A concrete input stream: two keepable records, a record the predicate
stops on, and a trailing decode error that must never be reached. -/
def inputW : BamInput Nat :=
  ⟨hdrW, [Except.ok 10, Except.ok 11, Except.ok 99,
          Except.error DecodeError.err]⟩

/-- A concrete input stream whose records all decode successfully. -/
def inputAllW : BamInput Nat := ⟨hdrW, [Except.ok 1, Except.ok 2, Except.ok 3]⟩

/-- Concrete input path resolving to `inputW`. -/
def bamW : List Char := ['b']

/-- Concrete input path resolving to `inputAllW`. -/
def bamAllW : List Char := ['c']

/-- Concrete output path. -/
def samW : List Char := ['s']

/-- Another concrete output path. -/
def pathO : List Char := ['o']

/-- A well-behaved environment: every open succeeds and every
`sam_write1` call returns 0. -/
def envW : Env Nat :=
  { htsOpenOk := fun _ => true
    samHdrWriteRet := 0
    samWrite1 := fun _ => 0
    bamOpen := fun p =>
      if p = bamW then some inputW
      else if p = bamAllW then some inputAllW
      else none
    bamStdin := none }

/-- An environment whose `sam_hdr_write` reports failure. -/
def envHdrFail : Env Nat :=
  { htsOpenOk := fun _ => true, samHdrWriteRet := -1, samWrite1 := fun _ => 0,
    bamOpen := fun _ => none, bamStdin := none }

/-- An environment whose `sam_write1` returns `-2`: a negative (failure)
result that is not the `-1` the source tests for. -/
def envNeg2 : Env Nat :=
  { htsOpenOk := fun _ => true, samHdrWriteRet := 0, samWrite1 := fun _ => -2,
    bamOpen := fun _ => none, bamStdin := none }

/-- A freshly constructed writer over `hdrW`. -/
def wNeg2 : SAMWriter Nat :=
  { sink := [SinkEvent.headerWritten hdrW], calls := 0,
    header := SAMHeaderView.new hdrW }

/-- A freshly constructed writer over `hdrW`, as `new envW pathO hdrW`
returns it. -/
def w0W : SAMWriter Nat :=
  { sink := [SinkEvent.headerWritten hdrW], calls := 0,
    header := SAMHeaderView.new hdrW }

/-- The predicate that stops on record 99 and keeps everything else. -/
def fStopW : Nat → Option Bool := fun n => if n = 99 then none else some true

/-! ## Helper lemmas about single writes -/

/-- The writer state after `write` does not depend on which error branch
was taken: the call count advances and the record lands on the sink iff
the primitive reported success. -/
lemma write_fst (env : Env α) (w : SAMWriter α) (r : α) :
    (SAMWriter.write env w r).1 =
      { w with calls := w.calls + 1,
               sink := if 0 ≤ env.samWrite1 w.calls
                       then w.sink ++ [SinkEvent.recordWritten r]
                       else w.sink } := by
  unfold SAMWriter.write
  by_cases hret : env.samWrite1 w.calls = -1 <;> simp [hret]

/-- `writeMany` only ever appends record events to the sink. -/
lemma writeMany_sink (env : Env α) (rs : List α) :
    ∀ w : SAMWriter α, ∃ ap,
      (writeMany env w rs).sink = w.sink ++ ap ∧
      ∀ e ∈ ap, isHeaderEvent e = false := by
  induction rs with
  | nil => exact fun w => ⟨[], by simp [writeMany], by simp⟩
  | cons r rs ih =>
    intro w
    have hcons : writeMany env w (r :: rs) =
        writeMany env (SAMWriter.write env w r).1 rs := rfl
    obtain ⟨ap, hap, hh⟩ := ih (SAMWriter.write env w r).1
    rw [hcons, hap, write_fst]
    by_cases hret : 0 ≤ env.samWrite1 w.calls
    · refine ⟨SinkEvent.recordWritten r :: ap, ?_, ?_⟩
      · simp [hret]
      · intro e he
        rcases List.mem_cons.mp he with he | he
        · subst he; rfl
        · exact hh e he
    · exact ⟨ap, by simp [hret], hh⟩

/-! ## Helper lemmas for the header codec -/

/-- Decimal digits read back to their value. -/
lemma charDigit_digitChar (d : Nat) (hd : d < 10) :
    charDigit (digitChar d) = d := by
  interval_cases d <;> decide

/-- Decimal digit characters are digits and are none of the separator or
terminator characters. -/
lemma digitChar_good (d : Nat) (hd : d < 10) :
    (digitChar d).isDigit = true ∧ digitChar d ≠ nl ∧
    digitChar d ≠ tab ∧ digitChar d ≠ nulChar := by
  interval_cases d <;> decide

/-- Reading one more trailing digit. -/
lemma readNat_append_digit (l : List Char) (c : Char) :
    readNat (l ++ [c]) = 10 * readNat l + charDigit c := by
  simp [readNat, List.foldl_append]

/-- Every character the digit emitter produces is a decimal digit. -/
lemma natDigitsAux_mem : ∀ fuel n c, c ∈ natDigitsAux fuel n →
    ∃ d, d < 10 ∧ c = digitChar d := by
  intro fuel
  induction fuel with
  | zero => intro n c hc; simp [natDigitsAux] at hc
  | succ f ih =>
    intro n c hc
    cases n with
    | zero => simp [natDigitsAux] at hc
    | succ m =>
      simp only [natDigitsAux] at hc
      rcases List.mem_append.mp hc with h | h
      · exact ih _ c h
      · rw [List.mem_singleton] at h
        exact ⟨(m + 1) % 10, Nat.mod_lt _ (by norm_num), h⟩

/-- The digit emitter is inverted by `readNat` when given enough fuel. -/
lemma readNat_natDigitsAux : ∀ fuel n, n ≤ fuel →
    readNat (natDigitsAux fuel n) = n := by
  intro fuel
  induction fuel with
  | zero =>
    intro n hn
    interval_cases n
    rfl
  | succ f ih =>
    intro n hn
    cases n with
    | zero => rfl
    | succ m =>
      have hdiv : (m + 1) / 10 ≤ f := by
        have h1 := Nat.div_lt_self (Nat.succ_pos m) (by norm_num : 1 < 10)
        omega
      simp only [natDigitsAux]
      rw [readNat_append_digit, ih _ hdiv,
        charDigit_digitChar _ (Nat.mod_lt _ (by norm_num))]
      omega

/-- Decimal round-trip for natural numbers. -/
lemma readNat_natChars (n : Nat) : readNat (natChars n) = n := by
  by_cases hn : n = 0
  · subst hn; decide
  · simp only [natChars, hn, if_false]
    exact readNat_natDigitsAux n n le_rfl

/-- The decimal representation is never empty. -/
lemma natChars_ne_nil (n : Nat) : natChars n ≠ [] := by
  by_cases hn : n = 0
  · subst hn; simp [natChars]
  · simp only [natChars, hn, if_false]
    cases n with
    | zero => exact absurd rfl hn
    | succ m => simp [natDigitsAux]

/-- Characters of a decimal representation are digits and are none of the
separator or terminator characters. -/
lemma natChars_mem (n : Nat) (c : Char) (hc : c ∈ natChars n) :
    c.isDigit = true ∧ c ≠ nl ∧ c ≠ tab ∧ c ≠ nulChar := by
  by_cases hn : n = 0
  · subst hn
    simp [natChars] at hc
    subst hc
    decide
  · simp only [natChars, hn, if_false] at hc
    obtain ⟨d, hd, rfl⟩ := natDigitsAux_mem n n c hc
    exact digitChar_good d hd

/-- All characters of a decimal representation pass the digit check. -/
lemma natChars_all_digit (n : Nat) :
    (natChars n).all Char.isDigit = true := by
  rw [List.all_eq_true]
  intro c hc
  exact (natChars_mem n c hc).1

/-- Stripping a tag off the list that starts with it. -/
lemma stripTag_self_append : ∀ tag rest : List Char,
    stripTag tag (tag ++ rest) = some rest := by
  intro tag
  induction tag with
  | nil => intro rest; rfl
  | cons t ts ih => intro rest; simp [stripTag, ih]

/-- Splitting at the tab that follows a tab-free block. -/
lemma splitAtTab_append (name rest : List Char) (h : tab ∉ name) :
    splitAtTab (name ++ tab :: rest) = some (name, rest) := by
  induction name with
  | nil => simp [splitAtTab]
  | cons c cs ih =>
    have hc : c ≠ tab := fun hh => h (hh ▸ List.mem_cons_self c cs)
    have h' : tab ∉ cs := fun hm => h (List.mem_cons_of_mem c hm)
    simp [splitAtTab, hc, ih h']

/-- Splitting off an appended last element. -/
lemma unsnoc_append {β : Type} (l : List β) (x : β) :
    unsnoc (l ++ [x]) = some (l, x) := by
  induction l with
  | nil => rfl
  | cons a l ih => simp [unsnoc, ih]

/-- The newline splitter recovers a newline-free line. -/
lemma splitOnNl_cons_line (l rest : List Char) (h : nl ∉ l) :
    splitOnNl (l ++ nl :: rest) = l :: splitOnNl rest := by
  induction l with
  | nil => simp [splitOnNl]
  | cons c cs ih =>
    have hc : c ≠ nl := fun hh => h (hh ▸ List.mem_cons_self c cs)
    have h' : nl ∉ cs := fun hm => h (List.mem_cons_of_mem c hm)
    rw [List.cons_append]
    simp [splitOnNl, hc, ih h']

/-- The newline splitter inverts the line joiner on newline-free lines. -/
lemma splitOnNl_joinLines (ls : List (List Char))
    (h : ∀ l ∈ ls, nl ∉ l) :
    splitOnNl (joinLines ls) = ls ++ [[]] := by
  induction ls with
  | nil => rfl
  | cons l ls ih =>
    simp only [joinLines]
    rw [splitOnNl_cons_line l _ (h l (List.mem_cons_self l ls)),
      ih (fun x hx => h x (List.mem_cons_of_mem l hx))]
    rfl

/-- Unpacking the name-validity check. -/
lemma validNameB_spec (s : List Char) (hv : validNameB s = true) :
    s ≠ [] ∧ ∀ c ∈ s, c ≠ nl ∧ c ≠ tab ∧ c ≠ nulChar := by
  simp only [validNameB, Bool.and_eq_true, List.all_eq_true] at hv
  obtain ⟨h1, h2⟩ := hv
  refine ⟨?_, ?_⟩
  · intro hs; subst hs; simp at h1
  · intro c hc
    have h3 := h2 c hc
    simp only [Bool.and_eq_true, bne_iff_ne] at h3
    exact ⟨h3.1.1, h3.1.2, h3.2⟩

/-- A valid metadata line contains no newline. -/
lemma validExtraB_no_nl (s : List Char) (hv : validExtraB s = true) :
    nl ∉ s := by
  simp only [validExtraB, Bool.and_eq_true, List.all_eq_true] at hv
  intro hm
  have h3 := hv.1 nl hm
  simp at h3

/-- A serialized reference line contains no newline. -/
lemma refLine_no_nl (r : List Char × Nat) (hv : validNameB r.1 = true) :
    nl ∉ refLine r := by
  obtain ⟨-, hchars⟩ := validNameB_spec r.1 hv
  intro hmem
  simp only [refLine, List.mem_append, List.mem_cons] at hmem
  rcases hmem with ((h | h) | h) | h
  · exact absurd h (by decide)
  · exact (hchars nl h).1 rfl
  · rcases h with h | h
    · exact absurd h (by decide)
    · exact absurd h (by decide)
  · exact (natChars_mem r.2 nl h).2.1 rfl

/-- Parsing a serialized reference line recovers the reference. -/
lemma parseLine_refLine (r : List Char × Nat) (hv : validNameB r.1 = true) :
    parseLine (refLine r) = some (Sum.inl r) := by
  obtain ⟨name, len⟩ := r
  obtain ⟨hne, hchars⟩ := validNameB_spec name hv
  have htab : tab ∉ name := fun hm => (hchars tab hm).2.1 rfl
  have h1 : refLine (name, len) =
      sqTag ++ (name ++ tab :: (lnTag ++ natChars len)) := by
    simp [refLine, List.append_assoc]
  rw [h1]
  simp only [parseLine, stripTag_self_append,
    splitAtTab_append name (lnTag ++ natChars len) htab]
  rw [if_pos ⟨hne, natChars_ne_nil len, natChars_all_digit len⟩,
    readNat_natChars]

/-- Parsing a valid metadata line keeps it verbatim. -/
lemma parseLine_extra (a : List Char) (hv : validExtraB a = true) :
    parseLine a = some (Sum.inr a) := by
  simp only [validExtraB, Bool.and_eq_true] at hv
  have h2 : stripTag sqTag a = none := Option.isNone_iff_eq_none.mp hv.2
  simp [parseLine, h2]

/-- Parsing a block of valid metadata lines. -/
lemma parseLines_extra (as : List (List Char))
    (hv : ∀ a ∈ as, validExtraB a = true) :
    parseLines as = some ⟨[], as⟩ := by
  induction as with
  | nil => rfl
  | cons a as ih =>
    simp [parseLines, ih (fun x hx => hv x (List.mem_cons_of_mem a hx)),
      parseLine_extra a (hv a (List.mem_cons_self a as))]

/-- Parsing serialized reference lines followed by metadata lines
recovers both blocks in order. -/
lemma parseLines_refs (rs : List (List Char × Nat))
    (as : List (List Char))
    (hr : ∀ r ∈ rs, validNameB r.1 = true)
    (ha : ∀ a ∈ as, validExtraB a = true) :
    parseLines (rs.map refLine ++ as) = some ⟨rs, as⟩ := by
  induction rs with
  | nil => simpa using parseLines_extra as ha
  | cons r rs ih =>
    simp [parseLines, ih (fun x hx => hr x (List.mem_cons_of_mem r hx)),
      parseLine_refLine r (hr r (List.mem_cons_self r rs))]

/-- No serialized line of a valid header contains a newline. -/
lemma serializeLines_no_nl (h : HeaderModel) (hv : validHeaderB h = true) :
    ∀ l ∈ serializeLines h, nl ∉ l := by
  simp only [validHeaderB, Bool.and_eq_true, List.all_eq_true] at hv
  obtain ⟨hr, ha⟩ := hv
  intro l hl
  rcases List.mem_append.mp hl with hl | hl
  · obtain ⟨r, hrm, rfl⟩ := List.mem_map.mp hl
    exact refLine_no_nl r (hr r hrm)
  · exact validExtraB_no_nl l (ha l hl)

/-! ## Helper lemmas about the record loop -/

/-- The loop keeps a record the predicate answers Keep on. -/
lemma keptRecords_keep (f : α → Option Bool) (r : α)
    (l : List (Except DecodeError α)) (h : f r = some true) :
    keptRecords f (Except.ok r :: l) = r :: keptRecords f l := by
  simp [keptRecords, h]

/-- The loop discards a record the predicate answers Discard on. -/
lemma keptRecords_skip (f : α → Option Bool) (r : α)
    (l : List (Except DecodeError α)) (h : f r = some false) :
    keptRecords f (Except.ok r :: l) = keptRecords f l := by
  simp [keptRecords, h]

/-- An exhausted input terminates the loop with `Ok`. -/
lemma filterLoop_nil (env : Env α) (f : α → Option Bool) (w : SAMWriter α) :
    filterLoop env f w [] = (w, Except.ok ()) := rfl

/-- A decode error aborts the loop with `IOError` at once. -/
lemma filterLoop_decode_error (env : Env α) (f : α → Option Bool)
    (w : SAMWriter α) (e : DecodeError)
    (rest : List (Except DecodeError α)) :
    filterLoop env f w (Except.error e :: rest) =
      (w, Except.error SAMError.IOError) := rfl

/-- A Stop answer terminates the loop with `Ok`, consuming nothing
further. -/
lemma filterLoop_stop (env : Env α) (f : α → Option Bool) (w : SAMWriter α)
    (r : α) (rest : List (Except DecodeError α)) (hstop : f r = none) :
    filterLoop env f w (Except.ok r :: rest) = (w, Except.ok ()) := by
  simp [filterLoop, hstop]

/-- A failed write of a kept record aborts the loop with `IOError`; the
failing record does not land on the sink. -/
lemma filterLoop_write_fail (env : Env α) (f : α → Option Bool)
    (w : SAMWriter α) (r : α) (rest : List (Except DecodeError α))
    (hkeep : f r = some true) (hfail : env.samWrite1 w.calls = -1) :
    filterLoop env f w (Except.ok r :: rest) =
      ({ w with calls := w.calls + 1 }, Except.error SAMError.IOError) := by
  have hneg : ¬(0 : Int) ≤ -1 := by omega
  simp [filterLoop, hkeep, SAMWriter.write, hfail, hneg]

/-- Processing a decided, successfully written block of input advances the
loop past it: the kept records land on the sink in order and the call
counter advances by their number. -/
lemma filterLoop_append (env : Env α) (f : α → Option Bool)
    (pre : List (Except DecodeError α)) :
    ∀ (rest : List (Except DecodeError α)) (w : SAMWriter α),
      allDecidedB f pre = true →
      (∀ n, n < (keptRecords f pre).length →
        0 ≤ env.samWrite1 (w.calls + n)) →
      filterLoop env f w (pre ++ rest) =
        filterLoop env f
          { w with
              sink := w.sink ++
                (keptRecords f pre).map SinkEvent.recordWritten,
              calls := w.calls + (keptRecords f pre).length }
          rest := by
  induction pre with
  | nil =>
    intro rest w _ _
    cases w
    simp [keptRecords]
  | cons x pre ih =>
    intro rest w hpre hwr
    simp only [allDecidedB, List.all_cons, Bool.and_eq_true] at hpre
    obtain ⟨hx, hpre'⟩ := hpre
    cases x with
    | error e => simp [decidedB] at hx
    | ok r =>
      have hb : (f r).isSome = true := by simpa [decidedB] using hx
      obtain ⟨b, hfb⟩ := Option.isSome_iff_exists.mp hb
      cases b with
      | false =>
        rw [List.cons_append, keptRecords_skip f r pre hfb]
        have hloop : filterLoop env f w (Except.ok r :: (pre ++ rest)) =
            filterLoop env f w (pre ++ rest) := by
          simp [filterLoop, hfb]
        rw [hloop]
        exact ih rest w hpre'
          (fun n hn => hwr n (by rw [keptRecords_skip f r pre hfb]; exact hn))
      | true =>
        rw [List.cons_append, keptRecords_keep f r pre hfb]
        have hk : (keptRecords f (Except.ok r :: pre)).length =
            (keptRecords f pre).length + 1 := by
          rw [keptRecords_keep f r pre hfb]; rfl
        have h0 : 0 ≤ env.samWrite1 w.calls := by
          have h00 := hwr 0 (by rw [hk]; omega)
          simpa using h00
        have hne : ¬env.samWrite1 w.calls = -1 := by omega
        have hwrite : SAMWriter.write env w r =
            ({ w with calls := w.calls + 1,
                      sink := w.sink ++ [SinkEvent.recordWritten r] },
             Except.ok ()) := by
          simp [SAMWriter.write, h0, hne]
        have hloop : filterLoop env f w (Except.ok r :: (pre ++ rest)) =
            filterLoop env f
              { w with calls := w.calls + 1,
                       sink := w.sink ++ [SinkEvent.recordWritten r] }
              (pre ++ rest) := by
          simp [filterLoop, hfb, hwrite]
        have hwr' : ∀ n, n < (keptRecords f pre).length →
            0 ≤ env.samWrite1
              (({ w with calls := w.calls + 1,
                         sink := w.sink ++ [SinkEvent.recordWritten r] } :
                 SAMWriter α).calls + n) := by
          intro n hn
          have h1 := hwr (n + 1) (by rw [hk]; omega)
          have heq : w.calls + 1 + n = w.calls + (n + 1) := by omega
          simpa [heq] using h1
        rw [hloop, ih rest _ hpre' hwr']
        have hwriters :
            ({ w with calls := w.calls + 1 + (keptRecords f pre).length,
                      sink := (w.sink ++ [SinkEvent.recordWritten r]) ++
                        (keptRecords f pre).map SinkEvent.recordWritten } :
              SAMWriter α) =
            { w with
                calls := w.calls + ((keptRecords f pre).length + 1),
                sink := w.sink ++ SinkEvent.recordWritten r ::
                  (keptRecords f pre).map SinkEvent.recordWritten } := by
          have hc : w.calls + 1 + (keptRecords f pre).length =
              w.calls + ((keptRecords f pre).length + 1) := by omega
          rw [hc, List.append_assoc]
          rfl
        exact congrArg (fun v => filterLoop env f v rest) hwriters

/-- Any output-path branch of the pipeline opens the writer with
`SAMWriter::new` on the given descriptor. -/
lemma openOutput_eq_new (env : Env α) (s : List Char) (h : HeaderModel) :
    openOutput env s h = SAMWriter.new env s h := by
  by_cases hs : s = stdinS
  · simp [openOutput, hs, SAMWriter.from_stdout]
  · simp [openOutput, hs, SAMWriter.from_path]

/-- When both opens succeed, the pipeline is the record loop run from the
freshly initialized writer, and exactly one `hts_open` call was made, on
the output descriptor. -/
lemma from_bam_opened (env : Env α) (bamfile samfile : List Char)
    (f : α → Option Bool) (input : BamInput α)
    (hin : openInput env bamfile = some input)
    (hout : env.htsOpenOk samfile = true) :
    from_bam_with_filter env bamfile samfile f =
      ⟨(filterLoop env f (initWriter (from_template input.header))
          input.records).2,
       some (filterLoop env f (initWriter (from_template input.header))
          input.records).1,
       [samfile]⟩ := by
  simp [from_bam_with_filter, hin, openOutput_eq_new, SAMWriter.new, hout,
    initWriter]

/-! ## C2 — per-record write errors -/

/-- C2 counterexample: the claim says `write` returns `WriteError` on any
negative `sam_write1` result; with the primitive returning `-2` (negative,
failure) the source's `== -1` test misses it and `write` returns `Ok`. -/
theorem c2_counterexample :
    envNeg2.samWrite1 wNeg2.calls < 0 ∧
    (SAMWriter.write envNeg2 wNeg2 (7 : Nat)).2 = Except.ok () :=
  ⟨by decide, rfl⟩

/-- C2 (amended): `SAMWriter::write` returns `WriteError` exactly when the
underlying `sam_write1` returns `-1`; every other result, including other
negative values, yields `Ok`. -/
theorem c2_write_error_iff_neg_one (env : Env α) (w : SAMWriter α) (r : α) :
    ((SAMWriter.write env w r).2 = Except.error WriteError.Some ↔
      env.samWrite1 w.calls = -1) ∧
    ((SAMWriter.write env w r).2 = Except.ok () ↔
      ¬env.samWrite1 w.calls = -1) := by
  by_cases hret : env.samWrite1 w.calls = -1 <;>
    simp [SAMWriter.write, hret]

/-! ## C3 — header-write failure during construction -/

/-- C3 counterexample: the claim says a failing header write makes the
whole `open` fail; in an environment whose `sam_hdr_write` reports failure,
`SAMWriter::new` (which discards that result) still returns a writer. -/
theorem c3_counterexample :
    envHdrFail.samHdrWriteRet < 0 ∧
    (SAMWriter.new envHdrFail pathO hdrW).1 =
      Except.ok { sink := [SinkEvent.headerWritten hdrW], calls := 0,
                  header := SAMHeaderView.new hdrW } :=
  ⟨by decide, rfl⟩

/-- C3 (amended): the open call fails only when `hts_open` fails; the
result of `sam_hdr_write` is discarded, so even when the header write
fails the construction succeeds and hands back a fully initialized
writer. -/
theorem c3_open_ok_despite_header_write_failure (env : Env α)
    (path : List Char) (h : HeaderModel) (_hfail : env.samHdrWriteRet < 0)
    (hopen : env.htsOpenOk path = true) :
    (SAMWriter.new env path h).1 =
      Except.ok { sink := [SinkEvent.headerWritten h], calls := 0,
                  header := SAMHeaderView.new h } := by
  simp [SAMWriter.new, hopen]

/-- C3 witness: the amended statement at the concrete failing
environment. -/
theorem c3_witness :
    (SAMWriter.new envHdrFail pathO hdrW).1 =
      Except.ok { sink := [SinkEvent.headerWritten hdrW], calls := 0,
                  header := SAMHeaderView.new hdrW } :=
  c3_open_ok_despite_header_write_failure envHdrFail pathO hdrW
    (by decide) rfl

/-! ## C4 — header release at writer end of life -/

/-- C4: the header view is acquired as owning (`owned = true`), yet
dropping the writer only closes the sink — `Drop for SAMWriter` calls
`hts_close` alone, `SAMHeaderView` has no `Drop`, and `bam_hdr_destroy`
is never called, so the owned header allocation is released zero times,
not exactly once. -/
theorem c4_header_never_released (h : HeaderModel) (w : SAMWriter Nat) :
    (SAMHeaderView.new h).owned = true ∧
    ReleaseEvent.releasedHeader ∉ SAMWriter.drop w ∧
    SAMWriter.drop w = [ReleaseEvent.closedSink] := by
  refine ⟨rfl, ?_, rfl⟩
  simp [SAMWriter.drop]

/-! ## C7 — input open failure leaves the output untouched -/

/-- C7: when the input descriptor cannot be opened, the pipeline returns
`IOError` with no writer constructed and no `hts_open` call made on any
output path. -/
theorem c7_input_open_failure_no_sink (env : Env α)
    (bamfile samfile : List Char) (f : α → Option Bool)
    (hin : openInput env bamfile = none) :
    from_bam_with_filter env bamfile samfile f =
      ⟨Except.error SAMError.IOError, none, []⟩ := by
  simp [from_bam_with_filter, hin]

/-- C7 witness: a concrete unopenable input path. -/
theorem c7_witness :
    from_bam_with_filter envW (['z'] : List Char) samW (fun _ => some true) =
      ⟨Except.error SAMError.IOError, none, []⟩ :=
  c7_input_open_failure_no_sink envW ['z'] samW (fun _ => some true) rfl

/-! ## C8 — the header is written exactly once, first -/

/-- C8: any successfully constructed writer has the header as the first
sink event, and any sequence of record writes appends only record events:
the header is never written twice and no record precedes it. -/
theorem c8_header_written_once_first (env : Env α) (path : List Char)
    (h : HeaderModel) (w0 : SAMWriter α) (tr : List (List Char))
    (rs : List α) (hnew : SAMWriter.new env path h = (Except.ok w0, tr)) :
    ∃ rest, (writeMany env w0 rs).sink = SinkEvent.headerWritten h :: rest ∧
      ∀ e ∈ rest, isHeaderEvent e = false := by
  have hw0 : w0.sink = [SinkEvent.headerWritten h] := by
    by_cases hopen : env.htsOpenOk path
    · simp [SAMWriter.new, hopen] at hnew
      rw [← hnew.1]
    · simp [SAMWriter.new, hopen] at hnew
  obtain ⟨ap, hap, hh⟩ := writeMany_sink env rs w0
  exact ⟨ap, by rw [hap, hw0]; rfl, hh⟩

/-- C8 witness: two record writes after a concrete successful open. -/
theorem c8_witness :
    ∃ rest, (writeMany envW w0W ([4, 5] : List Nat)).sink =
        SinkEvent.headerWritten hdrW :: rest ∧
      ∀ e ∈ rest, isHeaderEvent e = false :=
  c8_header_written_once_first envW pathO hdrW w0W [pathO] [4, 5] rfl

/-! ## C1 — Stop semantics -/

/-- C1: when the predicate answers Keep/Discard on the first `k` decoded
records and Stop on record `k`, the pipeline writes exactly the kept
records among the first `k`, in order, returns `Ok`, and neither consumes
nor writes anything after position `k`, whatever the remaining input is. -/
theorem c1_stop_semantics (env : Env α) (bamfile samfile : List Char)
    (f : α → Option Bool) (input : BamInput α)
    (pre suffix : List (Except DecodeError α)) (rk : α)
    (hin : openInput env bamfile = some input)
    (hout : env.htsOpenOk samfile = true)
    (hrecs : input.records = pre ++ Except.ok rk :: suffix)
    (hpre : allDecidedB f pre = true)
    (hstop : f rk = none)
    (hwr : ∀ n, 0 ≤ env.samWrite1 n) :
    (from_bam_with_filter env bamfile samfile f).result = Except.ok () ∧
    (from_bam_with_filter env bamfile samfile f).writer =
      some { sink := SinkEvent.headerWritten (from_template input.header) ::
               (keptRecords f pre).map SinkEvent.recordWritten,
             calls := (keptRecords f pre).length,
             header := SAMHeaderView.new (from_template input.header) } := by
  rw [from_bam_opened env bamfile samfile f input hin hout, hrecs,
    filterLoop_append env f pre (Except.ok rk :: suffix)
      (initWriter (from_template input.header)) hpre
      (fun n _ => by simpa [initWriter] using hwr n),
    filterLoop_stop env f _ rk suffix hstop]
  constructor
  · rfl
  · simp [initWriter]

/-- C1 witness: Stop at position 2 after two kept records, with a decode
error lurking in the abandoned remainder. -/
theorem c1_witness :
    (from_bam_with_filter envW bamW samW fStopW).result = Except.ok () ∧
    (from_bam_with_filter envW bamW samW fStopW).writer =
      some { sink := SinkEvent.headerWritten (from_template inputW.header) ::
               (keptRecords fStopW [Except.ok 10, Except.ok 11]).map
                 SinkEvent.recordWritten,
             calls := (keptRecords fStopW
               [Except.ok 10, Except.ok 11]).length,
             header :=
               SAMHeaderView.new (from_template inputW.header) } :=
  c1_stop_semantics envW bamW samW fStopW inputW
    [Except.ok 10, Except.ok 11] [Except.error DecodeError.err] 99
    rfl rfl rfl rfl rfl (fun _ => Int.le_refl 0)

/-! ## C5 — order preservation under the always-Keep predicate -/

/-- An input of successfully decoded records is decided by an always-Keep
predicate. -/
lemma allDecidedB_map_ok (f : α → Option Bool) (rs : List α)
    (hf : ∀ r, f r = some true) :
    allDecidedB f (rs.map Except.ok) = true := by
  simp only [allDecidedB, List.all_eq_true]
  intro x hx
  obtain ⟨r, -, rfl⟩ := List.mem_map.mp hx
  simp [decidedB, hf r]

/-- An always-Keep predicate keeps every record. -/
lemma keptRecords_all_keep (f : α → Option Bool) (rs : List α)
    (hf : ∀ r, f r = some true) :
    keptRecords f (rs.map Except.ok) = rs := by
  induction rs with
  | nil => rfl
  | cons r rs ih =>
    rw [List.map_cons, keptRecords_keep f r (rs.map Except.ok) (hf r), ih]

/-- C5: with the always-Keep predicate, every decoded record is written,
in input order, and the pipeline returns `Ok`. -/
theorem c5_order_preservation (env : Env α) (bamfile samfile : List Char)
    (f : α → Option Bool) (input : BamInput α) (rs : List α)
    (hin : openInput env bamfile = some input)
    (hout : env.htsOpenOk samfile = true)
    (hrecs : input.records = rs.map Except.ok)
    (hf : ∀ r, f r = some true)
    (hwr : ∀ n, 0 ≤ env.samWrite1 n) :
    (from_bam_with_filter env bamfile samfile f).result = Except.ok () ∧
    (from_bam_with_filter env bamfile samfile f).writer =
      some { sink := SinkEvent.headerWritten (from_template input.header) ::
               rs.map SinkEvent.recordWritten,
             calls := rs.length,
             header := SAMHeaderView.new (from_template input.header) } := by
  rw [from_bam_opened env bamfile samfile f input hin hout, hrecs,
    ← List.append_nil (rs.map Except.ok),
    filterLoop_append env f (rs.map Except.ok) []
      (initWriter (from_template input.header))
      (allDecidedB_map_ok f rs hf)
      (fun n _ => by simpa [initWriter] using hwr n),
    filterLoop_nil]
  rw [keptRecords_all_keep f rs hf]
  constructor
  · rfl
  · simp [initWriter]

/-- C5 witness: three records, all kept, written in order. -/
theorem c5_witness :
    (from_bam_with_filter envW bamAllW samW
      (fun _ => some true)).result = Except.ok () ∧
    (from_bam_with_filter envW bamAllW samW (fun _ => some true)).writer =
      some { sink :=
               SinkEvent.headerWritten (from_template inputAllW.header) ::
                ([1, 2, 3] : List Nat).map SinkEvent.recordWritten,
             calls := ([1, 2, 3] : List Nat).length,
             header :=
               SAMHeaderView.new (from_template inputAllW.header) } :=
  c5_order_preservation envW bamAllW samW (fun _ => some true) inputAllW
    [1, 2, 3] rfl rfl rfl (fun _ => rfl) (fun _ => Int.le_refl 0)

/-! ## C6 — decode or write failure aborts the pipeline -/

/-- C6: when the input reaches a decode error, or a kept record whose
write fails, after a decided and successfully written block, the pipeline
aborts with `IOError` at once: the sink holds the header and exactly the
previously kept records — the failing record is not written and nothing
further is consumed, whatever the remaining input is. -/
theorem c6_abort_on_decode_or_write_failure (env : Env α)
    (bamfile samfile : List Char) (f : α → Option Bool)
    (input : BamInput α) (pre suffix : List (Except DecodeError α))
    (bad : Except DecodeError α)
    (hin : openInput env bamfile = some input)
    (hout : env.htsOpenOk samfile = true)
    (hrecs : input.records = pre ++ bad :: suffix)
    (hpre : allDecidedB f pre = true)
    (hwr : ∀ n, n < (keptRecords f pre).length → 0 ≤ env.samWrite1 n)
    (hbad : (∃ e, bad = Except.error e) ∨
      (∃ r, bad = Except.ok r ∧ f r = some true ∧
        env.samWrite1 (keptRecords f pre).length = -1)) :
    (from_bam_with_filter env bamfile samfile f).result =
      Except.error SAMError.IOError ∧
    ∃ w, (from_bam_with_filter env bamfile samfile f).writer = some w ∧
      w.sink = SinkEvent.headerWritten (from_template input.header) ::
        (keptRecords f pre).map SinkEvent.recordWritten := by
  rw [from_bam_opened env bamfile samfile f input hin hout, hrecs,
    filterLoop_append env f pre (bad :: suffix)
      (initWriter (from_template input.header)) hpre
      (fun n hn => by simpa [initWriter] using hwr n hn)]
  rcases hbad with ⟨e, rfl⟩ | ⟨r, rfl, hkeep, hfail⟩
  · rw [filterLoop_decode_error]
    exact ⟨rfl, _, rfl, by simp [initWriter]⟩
  · rw [filterLoop_write_fail env f _ r suffix hkeep
      (by simpa [initWriter] using hfail)]
    exact ⟨rfl, _, rfl, by simp [initWriter]⟩

/-- C6 witness: a decode error right after three cleanly written kept
records. -/
theorem c6_witness :
    (from_bam_with_filter envW bamW samW (fun _ => some true)).result =
      Except.error SAMError.IOError ∧
    ∃ w, (from_bam_with_filter envW bamW samW
        (fun _ => some true)).writer = some w ∧
      w.sink = SinkEvent.headerWritten (from_template inputW.header) ::
        (keptRecords (fun _ => some true)
          [Except.ok 10, Except.ok 11, Except.ok 99]).map
          SinkEvent.recordWritten :=
  c6_abort_on_decode_or_write_failure envW bamW samW (fun _ => some true)
    inputW [Except.ok 10, Except.ok 11, Except.ok 99] []
    (Except.error DecodeError.err) rfl rfl rfl rfl
    (fun _ _ => Int.le_refl 0) (Or.inl ⟨DecodeError.err, rfl⟩)

/-! ## C10 — non-UTF-8 paths -/

/-- C10: a path whose string form is not valid UTF-8 makes `from_path`
return `IOError` with no `hts_open` call attempted; the sink is only ever
opened through the UTF-8 string form of the path. -/
theorem c10_invalid_utf8_path_io_error (env : Env α) (p : OsPath)
    (h : HeaderModel) (hp : p.utf8 = none) :
    SAMWriter.from_path env p h =
      (Except.error SAMError.IOError, ([] : List (List Char))) := by
  simp [SAMWriter.from_path, hp]

/-- C10 witness: a concrete non-UTF-8 path. -/
theorem c10_witness :
    SAMWriter.from_path envW ⟨none⟩ hdrW =
      (Except.error SAMError.IOError, ([] : List (List Char))) :=
  c10_invalid_utf8_path_io_error envW ⟨none⟩ hdrW rfl

/-! ## C9 — header round-trip -/

/-- C9: for every valid header, parsing its serialization recovers the
same reference names, lengths and order and the same metadata lines; the
serialization is non-empty and self-describing (null-terminated). -/
theorem c9_header_round_trip (h : HeaderModel)
    (hv : validHeaderB h = true) :
    parse (serialize h) = some h ∧ serialize h ≠ [] ∧
    ∃ body, serialize h = body ++ [nulChar] := by
  have hnl := serializeLines_no_nl h hv
  refine ⟨?_, ?_, joinLines (serializeLines h), rfl⟩
  · simp only [serialize, parse, unsnoc_append, if_pos rfl]
    rw [splitOnNl_joinLines (serializeLines h) hnl, unsnoc_append]
    simp only [if_pos rfl]
    obtain ⟨rs, as⟩ := h
    simp only [validHeaderB, Bool.and_eq_true, List.all_eq_true] at hv
    exact parseLines_refs rs as hv.1 hv.2
  · simp [serialize]

/-- C9 witness: the concrete header `hdrW` round-trips and its
serialization is non-empty and null-terminated. -/
theorem c9_witness :
    parse (serialize hdrW) = some hdrW ∧ serialize hdrW ≠ [] ∧
    ∃ body, serialize hdrW = body ++ [nulChar] :=
  c9_header_round_trip hdrW (by decide)

end RustHtslib
